import Mathlib

/-!
Shallow embedding of `src/app.js` (a queue-driven video downloader) and
verification of its specification claims.

The embedding models:
* the configuration constants (lines 16-20 of the source);
* `readUrls` (lines 33-49): reading and parsing the queue file;
* `removeUrlFromFile` (lines 52-67): lock-guarded read-filter-rewrite;
* `downloadVideo` (lines 70-165): the per-identifier retrying task,
  driven by an oracle describing what each attempt observes;
* the stream-filter predicate of line 122;
* `downloadAllVideos` (lines 168-199) and the top-level handler
  (lines 202-204): dispatch and `Promise.all` settlement;
* the concurrency limiter (`p-limit`) as a step relation.

JavaScript string operations (`split`, `trim`, `join`) are embedded as
executable functions over `List Char` so that every definition evaluates
inside the kernel.
-/

namespace YtDownloader

/-- Configuration constant `CONCURRENCY_LIMIT` (source line 18). -/
def CONCURRENCY_LIMIT : Nat := 2

/-- Configuration constant `MAX_RETRIES` (source line 19). -/
def MAX_RETRIES : Nat := 3

/-- Configuration constant `RETRY_DELAY_BASE`, in milliseconds (source line 20). -/
def RETRY_DELAY_BASE : Nat := 2000

/-- The `retries: 5` option passed to `lockfile.lock` (source line 53). -/
def LOCK_RETRIES : Nat := 5

/-- Whitespace characters stripped by JavaScript `String.prototype.trim`
(restricted to the ASCII ones that appear in text files). -/
def isJsWhitespace (c : Char) : Bool :=
  c == ' ' || c == '\t' || c == '\n' || c == '\r' ||
  c == Char.ofNat 11 || c == Char.ofNat 12

/-- JavaScript `s.trim()`: drop whitespace from both ends. -/
def jsTrim (s : String) : String :=
  String.mk (((s.data.dropWhile isJsWhitespace).reverse.dropWhile isJsWhitespace).reverse)

/-- Character-level worker for JavaScript `s.split("\n")`:
splitting on every newline, keeping empty pieces (so a trailing newline
yields a final empty piece, and the empty string yields one empty piece). -/
def splitAux : List Char → List (List Char)
  | [] => [[]]
  | c :: cs =>
    match splitAux cs with
    | [] => [[c]]
    | l :: ls => if c = '\n' then [] :: l :: ls else (c :: l) :: ls

/-- JavaScript `s.split("\n")` (source line 37). -/
def jsSplitLines (s : String) : List String :=
  (splitAux s.data).map String.mk

/-- Character-level worker for JavaScript `array.join("\n")`. -/
def joinNl : List (List Char) → List Char
  | [] => []
  | [x] => x
  | x :: y :: ys => x ++ '\n' :: joinNl (y :: ys)

/-- `updatedUrls.join("\n") + (updatedUrls.length ? "\n" : "")`
(source line 59): one identifier per line, trailing newline iff non-empty. -/
def joinLines (us : List String) : String :=
  if us.isEmpty then "" else String.mk (joinNl (us.map String.data) ++ ['\n'])

/-- The parsing pipeline of `readUrls` (source lines 36-39): split the file
data on newlines, trim each line, keep the lines that are non-empty (JS
truthiness of a string) and pass the external validity predicate
(`ytdl.validateURL`, kept abstract as `validate`). -/
def parseUrls (validate : String → Bool) (data : String) : List String :=
  ((jsSplitLines data).map jsTrim).filter (fun u => (u != "") && validate u)

/-- Observable states of the queue file used by the embedding:
present with some byte content, absent (ENOENT), or unreadable for another
reason (any other read error). -/
inductive FileContent where
  | readable (data : String)
  | missing
  | unreadable
deriving DecidableEq

/-- `readUrls` (source lines 33-49): returns the queue file state after the
call together with the parsed identifier list.  A present file is parsed;
a missing file is created empty and yields `[]`; any other read failure is
logged and yields `[]`.  The function is total: no error is ever raised to
the caller. -/
def readUrls (validate : String → Bool) : FileContent → FileContent × List String
  | FileContent.readable d => (FileContent.readable d, parseUrls validate d)
  | FileContent.missing => (FileContent.readable "", [])
  | FileContent.unreadable => (FileContent.unreadable, [])

/-- Environment for one `removeUrlFromFile` call: how many consecutive
acquisition attempts the lock contention defeats, and whether the rewrite
of the queue file succeeds. -/
structure RemoveEnv where
  lockBusyTries : Nat
  writeOk : Bool
deriving DecidableEq

/-- How a `removeUrlFromFile` call ends: normal completion after a
successful rewrite, normal completion with the write error logged and
swallowed, or a rejection that escapes to the caller. -/
inductive RemoveOutcome where
  | ok
  | swallowed
  | raised
deriving DecidableEq

/-- Result of a `removeUrlFromFile` call: the queue file state afterwards,
whether the `finally` release of the lock ran (it runs exactly when the
lock was acquired), and how the call ended. -/
structure RemoveResult where
  fs : FileContent
  released : Bool
  outcome : RemoveOutcome
deriving DecidableEq

/-- `removeUrlFromFile` (source lines 52-67).  `lockfile.lock(URLS_FILE,
{ retries: 5 })` on line 53 sits *outside* the `try` block: if contention
outlasts the 5 retries the returned promise rejects and that rejection
escapes to the caller.  Once the lock is acquired, the body re-reads the
queue (`readUrls`), filters out `urlToRemove`, rewrites the file with one
identifier per line and a trailing newline iff non-empty; a write error is
caught and logged (swallowed), and the `finally` block releases the lock
on both paths. -/
def removeUrlFromFile (env : RemoveEnv) (validate : String → Bool)
    (urlToRemove : String) (fs : FileContent) : RemoveResult :=
  if LOCK_RETRIES < env.lockBusyTries then
    ⟨fs, false, RemoveOutcome.raised⟩
  else
    let loaded := readUrls validate fs
    let updatedUrls := loaded.2.filter (fun u => u != urlToRemove)
    if env.writeOk then
      ⟨FileContent.readable (joinLines updatedUrls), true, RemoveOutcome.ok⟩
    else
      ⟨loaded.1, true, RemoveOutcome.swallowed⟩

/-- What one attempt of `downloadVideo` observes, as reported by an oracle
`env : Nat → AttemptEvent` indexed by the attempt number:
* `resolveError` — `ytdl.getInfo` rejects (source line 74);
* `fileExists title` — resolution succeeds and `fsPromises.access`
  finds the target file already present (source line 80);
* `noFormat title` — resolution succeeds, the file is absent, and
  `info.formats.find` returns no suitable format (source lines 89-100);
* `transferOk title` — a byte stream is opened and the write stream
  emits `finish` (source line 141);
* `transferError title` — a byte stream is opened and the video or
  write stream emits `error` (source lines 147-148). -/
inductive AttemptEvent where
  | resolveError
  | fileExists (title : String)
  | noFormat (title : String)
  | transferOk (title : String)
  | transferError (title : String)

/-- Observable effects of one `downloadVideo` call (all attempts it
performs): the queue-removal calls it makes, the backoff waits it sleeps,
how many byte streams it opens, and how many attempts it runs. -/
structure Trace where
  removes : List String
  waits : List Nat
  streams : Nat
  attempts : Nat
deriving DecidableEq

/-- The backoff delay `RETRY_DELAY_BASE * Math.pow(2, attempt - 1)`
(source line 156). -/
def retryDelay (attempt : Nat) : Nat :=
  RETRY_DELAY_BASE * 2 ^ (attempt - 1)

/-- `downloadVideo` (source lines 70-165), returning its effect trace and
its settlement: `Except.ok true` (resolved with success), `Except.ok false`
(resolved with failure after the retry cap), or `Except.error ()` (the
promise rejects).

Faithfulness notes, keyed to the source:
* the skip-if-exists path (lines 79-86) calls `removeUrlFromFile` and
  resolves `true`, opening no stream;
* the completion handler (lines 141-145) calls `removeUrlFromFile` and
  resolves `true` after one stream was opened;
* a stream/write `error` (lines 147-148) rejects the promise that line 140
  *returned* from inside the `try`; a rejection of an already-returned
  promise is not caught by the `catch` of line 150, so no retry happens
  and the rejection escapes the task;
* `getInfo` rejections and the no-format `throw` (lines 74, 117) are
  thrown inside the `try` and reach the `catch`: if `attempt < MAX_RETRIES`
  the task waits `retryDelay attempt` and restarts with `attempt + 1`
  (lines 155-159), otherwise it resolves `false` (lines 160-163).
The queue-removal calls themselves are modelled as succeeding; their own
failure modes are the subject of the `removeUrlFromFile` embedding. -/
def downloadVideo (url : String) (env : Nat → AttemptEvent) (attempt : Nat) :
    Trace × Except Unit Bool :=
  match env attempt with
  | AttemptEvent.fileExists _ => (⟨[url], [], 0, 1⟩, Except.ok true)
  | AttemptEvent.transferOk _ => (⟨[url], [], 1, 1⟩, Except.ok true)
  | AttemptEvent.transferError _ => (⟨[], [], 1, 1⟩, Except.error ())
  | _ =>
    if h : attempt < MAX_RETRIES then
      (⟨(downloadVideo url env (attempt + 1)).1.removes,
        retryDelay attempt :: (downloadVideo url env (attempt + 1)).1.waits,
        (downloadVideo url env (attempt + 1)).1.streams,
        (downloadVideo url env (attempt + 1)).1.attempts + 1⟩,
       (downloadVideo url env (attempt + 1)).2)
    else (⟨[], [], 0, 1⟩, Except.ok false)
termination_by MAX_RETRIES - attempt
decreasing_by all_goals (simp only [MAX_RETRIES] at *; omega)

/-- A format object as inspected by the selection predicate of source
lines 89-98 and the stream filter of line 122.  Only `itag` matters for
the stream filter. -/
structure VideoFormat where
  itag : Nat
deriving DecidableEq

/-- The filter passed to `ytdl` on source line 122:
`filter: (format) => format.itag === format.itag`.  The lambda's `format`
parameter shadows the `format` selected on line 89, so both sides of the
comparison are the candidate format itself; `selected` is the previously
computed selection, captured here to state its irrelevance. -/
def streamFilter (_selected : VideoFormat) : VideoFormat → Bool :=
  fun format => format.itag == format.itag

/-- `Promise.all` over the settled task promises of source line 197: if
every promise fulfills, the aggregate fulfills with all task results; if
any promise rejects, the aggregate rejects and the remaining results are
not collected. -/
def promiseAll : List (Except Unit Bool) → Except Unit (List Bool)
  | [] => Except.ok []
  | Except.error e :: _ => Except.error e
  | Except.ok b :: rs =>
    match promiseAll rs with
    | Except.error e => Except.error e
    | Except.ok bs => Except.ok (b :: bs)

/-- What one run of the scheduler reports: the identifiers it dispatched
one task for, and the settlement of `Promise.all` over those tasks. -/
structure RunReport where
  dispatched : List String
  outcome : Except Unit (List Bool)

/-- `downloadAllVideos` (source lines 168-199) with the per-identifier
task settlements abstracted as `task`: loads the queue snapshot once via
`readUrls`, returns early with no dispatch when the snapshot is empty
(lines 172-175), and otherwise dispatches exactly one task per snapshot
identifier and awaits `Promise.all` over them (lines 186-197).  The
rejection of `downloadAllVideos` itself is caught by the top-level
`.catch` of lines 202-204, which only logs. -/
def downloadAllVideos (validate : String → Bool) (fs : FileContent)
    (task : String → Except Unit Bool) : FileContent × RunReport :=
  let loaded := readUrls validate fs
  if loaded.2.isEmpty then (loaded.1, ⟨[], Except.ok []⟩)
  else (loaded.1, ⟨loaded.2, promiseAll (loaded.2.map task)⟩)

/-- A scheduler state for the concurrency-limiter model: tasks not yet
started, tasks currently executing Fetcher-bound work, and finished
tasks. -/
structure SchedState where
  pending : Nat
  active : Nat
  done : Nat
deriving DecidableEq

/-- Modelled from the spec: the `p-limit` concurrency limiter built on
source line 185 is an external dependency whose code is not part of this
repository; per the spec's Scheduler contract (§4.4) it starts a pending
task only while fewer than `k` tasks are active — excess tasks wait for a
slot to free — and a finishing task frees its slot. -/
inductive SchedStep (k : Nat) : SchedState → SchedState → Prop where
  | start (s : SchedState) (hs : s.active < k) (hp : 0 < s.pending) :
      SchedStep k s ⟨s.pending - 1, s.active + 1, s.done⟩
  | finish (s : SchedState) (ha : 0 < s.active) :
      SchedStep k s ⟨s.pending, s.active - 1, s.done + 1⟩

/-- States of the limited scheduler reachable during a run that dispatches
`n` tasks: the run starts with all `n` pending and none active, and
evolves by `SchedStep`. -/
inductive SchedReachable (k : Nat) : SchedState → Prop where
  | init (n : Nat) : SchedReachable k ⟨n, 0, 0⟩
  | step {s t : SchedState} :
      SchedReachable k s → SchedStep k s t → SchedReachable k t

/-! ### Helper lemmas about the string model -/

/-- Splitting never produces an empty list of pieces. -/
theorem splitAux_ne_nil (l : List Char) : splitAux l ≠ [] := by
  cases l with
  | nil => simp [splitAux]
  | cons c cs =>
    simp only [splitAux]
    cases splitAux cs with
    | nil => simp
    | cons x xs =>
      by_cases h : c = '\n' <;> simp [h]

/-- A leading newline contributes an empty first piece. -/
theorem splitAux_nl (cs : List Char) : splitAux ('\n' :: cs) = [] :: splitAux cs := by
  simp only [splitAux]
  cases h : splitAux cs with
  | nil => exact absurd h (splitAux_ne_nil cs)
  | cons x xs => simp

/-- A leading non-newline character extends the first piece. -/
theorem splitAux_cons_of_ne (c : Char) (cs : List Char) (hc : c ≠ '\n')
    (l : List Char) (ls : List (List Char)) (h : splitAux cs = l :: ls) :
    splitAux (c :: cs) = (c :: l) :: ls := by
  simp only [splitAux, h]
  simp [hc]

/-- Splitting a newline-free block followed by a newline peels the block
off as the first piece. -/
theorem splitAux_append_nl (a b : List Char) (h : '\n' ∉ a) :
    splitAux (a ++ '\n' :: b) = a :: splitAux b := by
  induction a with
  | nil => simpa using splitAux_nl b
  | cons c a ih =>
    have hc : c ≠ '\n' := fun hc => h (by simp [hc])
    have ha : '\n' ∉ a := fun ha => h (by simp [ha])
    rw [List.cons_append]
    rw [splitAux_cons_of_ne c _ hc a (splitAux b) (ih ha)]

/-- Round trip at character level: joining newline-free pieces with
newlines, appending a trailing newline, and splitting again recovers the
pieces plus one final empty piece. -/
theorem splitAux_joinNl (us : List (List Char)) (h : ∀ u ∈ us, '\n' ∉ u)
    (hne : us ≠ []) : splitAux (joinNl us ++ ['\n']) = us ++ [[]] := by
  induction us with
  | nil => exact absurd rfl hne
  | cons x us ih =>
    cases us with
    | nil =>
      have hx : '\n' ∉ x := h x (by simp)
      simpa [joinNl, splitAux] using splitAux_append_nl x [] hx
    | cons y ys =>
      have hx : '\n' ∉ x := h x (by simp)
      have hrest : ∀ u ∈ y :: ys, '\n' ∉ u := fun u hu => h u (by simp [hu])
      have : joinNl (x :: y :: ys) ++ ['\n'] = x ++ '\n' :: (joinNl (y :: ys) ++ ['\n']) := by
        simp [joinNl]
      rw [this, splitAux_append_nl _ _ hx, ih hrest (by simp)]
      simp

/-- Every piece produced by splitting is newline-free. -/
theorem mem_splitAux_no_nl (l : List Char) :
    ∀ p ∈ splitAux l, '\n' ∉ p := by
  induction l with
  | nil => intro p hp; simp [splitAux] at hp; simp [hp]
  | cons c cs ih =>
    intro p hp
    simp only [splitAux] at hp
    cases hs : splitAux cs with
    | nil => exact absurd hs (splitAux_ne_nil cs)
    | cons x xs =>
      rw [hs] at hp
      by_cases hc : c = '\n'
      · simp [hc] at hp
        rcases hp with hp | hp | hp
        · simp [hp]
        · exact ih p (by rw [hs]; simp [hp])
        · exact ih p (by rw [hs]; simp [hp])
      · simp [hc] at hp
        rcases hp with hp | hp
        · subst hp
          intro hmem
          rcases List.mem_cons.mp hmem with h1 | h1
          · exact hc h1.symm
          · exact ih x (by rw [hs]; simp) h1
        · exact ih p (by rw [hs]; simp [hp])

/-- Rebuilding a string from its character data is the identity. -/
theorem stringMk_data (s : String) : String.mk s.data = s := by
  cases s
  rfl

/-- Trimming only removes characters. -/
theorem jsTrim_data_subset (s : String) : (jsTrim s).data ⊆ s.data := by
  intro c hc
  simp only [jsTrim] at hc
  have h1 := (List.dropWhile_sublist (l := (s.data.dropWhile isJsWhitespace).reverse)
      (p := isJsWhitespace)).subset
  have h2 := (List.dropWhile_sublist (l := s.data) (p := isJsWhitespace)).subset
  have := h1 (List.mem_reverse.mp hc)
  exact h2 (List.mem_reverse.mp this)

/-- Trimming a newline-free string leaves it newline-free. -/
theorem no_nl_jsTrim (s : String) (h : '\n' ∉ s.data) : '\n' ∉ (jsTrim s).data :=
  fun hmem => h (jsTrim_data_subset s hmem)

/-- Every line produced by splitting a string is newline-free. -/
theorem no_nl_of_mem_jsSplitLines (d u : String) (h : u ∈ jsSplitLines d) :
    '\n' ∉ u.data := by
  simp only [jsSplitLines, List.mem_map] at h
  obtain ⟨p, hp, rfl⟩ := h
  exact mem_splitAux_no_nl d.data p hp

/-- Every identifier loaded from the queue file is newline-free. -/
theorem no_nl_of_mem_parseUrls (v : String → Bool) (d u : String)
    (h : u ∈ parseUrls v d) : '\n' ∉ u.data := by
  simp only [parseUrls, List.mem_filter, List.mem_map] at h
  obtain ⟨⟨w, hw, rfl⟩, -⟩ := h
  exact no_nl_jsTrim w (no_nl_of_mem_jsSplitLines d w hw)

/-- Round trip at string level: the file written by the queue rewrite
splits back into exactly the written identifiers plus a final empty line. -/
theorem jsSplitLines_joinLines (us : List String)
    (h : ∀ u ∈ us, '\n' ∉ u.data) (hne : us ≠ []) :
    jsSplitLines (joinLines us) = us ++ [""] := by
  have hne2 : us.isEmpty = false := by
    cases us with
    | nil => exact absurd rfl hne
    | cons x xs => rfl
  have hmem : ∀ p ∈ us.map String.data, '\n' ∉ p := by
    intro p hp
    obtain ⟨u, hu, rfl⟩ := List.mem_map.mp hp
    exact h u hu
  have hmapne : us.map String.data ≠ [] := by
    cases us with
    | nil => exact absurd rfl hne
    | cons x xs => simp
  simp only [joinLines, hne2, Bool.false_eq_true, if_false, jsSplitLines]
  rw [splitAux_joinNl (us.map String.data) hmem hmapne]
  rw [List.map_append, List.map_map]
  have : us.map (String.mk ∘ String.data) = us := by
    apply List.map_id''
    intro u
    exact stringMk_data u
  rw [this]
  rfl

/-- A non-empty rewrite of the queue file ends in a newline. -/
theorem joinLines_getLast (v : String) (vs : List String) :
    (joinLines (v :: vs)).data.getLast? = some '\n' := by
  simp only [joinLines, List.isEmpty_cons, if_false]
  show (joinNl ((v :: vs).map String.data) ++ ['\n']).getLast? = some '\n'
  simp

/-! ### Helper lemmas about the task and scheduler models -/

/-- On every settlement of `downloadVideo` other than success, no
queue-removal call was made, for any attempt number (strong induction on
the remaining retry budget). -/
theorem downloadVideo_no_removal_aux :
    ∀ (n attempt : Nat), MAX_RETRIES - attempt ≤ n →
    ∀ (url : String) (env : Nat → AttemptEvent),
    (downloadVideo url env attempt).2 ≠ Except.ok true →
    (downloadVideo url env attempt).1.removes = [] := by
  intro n
  have hM : MAX_RETRIES = 3 := rfl
  induction n with
  | zero =>
    intro attempt hle url env h
    rw [downloadVideo.eq_def] at h ⊢
    cases henv : env attempt <;> simp only [henv] at h ⊢
    · rw [dif_neg (by omega)]
    · simp at h
    · rw [dif_neg (by omega)]
    · simp at h
  | succ m ih =>
    intro attempt hle url env h
    rw [downloadVideo.eq_def] at h ⊢
    cases henv : env attempt <;> simp only [henv] at h ⊢
    · by_cases hlt : attempt < MAX_RETRIES
      · rw [dif_pos hlt] at h ⊢
        exact ih (attempt + 1) (by omega) url env h
      · rw [dif_neg hlt]
    · simp at h
    · by_cases hlt : attempt < MAX_RETRIES
      · rw [dif_pos hlt] at h ⊢
        exact ih (attempt + 1) (by omega) url env h
      · rw [dif_neg hlt]
    · simp at h

/-- If no task promise rejects, `Promise.all` fulfills with one result
per task. -/
theorem promiseAll_ok (rs : List (Except Unit Bool))
    (h : ∀ r ∈ rs, r ≠ Except.error ()) :
    ∃ bs, promiseAll rs = Except.ok bs ∧ bs.length = rs.length := by
  induction rs with
  | nil => exact ⟨[], rfl, rfl⟩
  | cons r rs ih =>
    obtain ⟨bs, hbs, hlen⟩ := ih (fun x hx => h x (by simp [hx]))
    cases r with
    | error e => cases e; exact absurd rfl (h _ (by simp))
    | ok b =>
      refine ⟨b :: bs, ?_, by simp [hlen]⟩
      simp only [promiseAll, hbs]

/-! ### Claim theorems -/

/-- C1: in every run of a download task, for every identifier and every
oracle of attempt events, the task calls the queue removal only on a path
whose settlement is terminal success (completed transfer or
skipped-existing); on every other path — failure after exhausting
`MAX_RETRIES` as well as a rejected transfer — no removal call is made. -/
theorem c1_removal_only_on_success (url : String) (env : Nat → AttemptEvent)
    (attempt : Nat) (h : (downloadVideo url env attempt).2 ≠ Except.ok true) :
    (downloadVideo url env attempt).1.removes = [] :=
  downloadVideo_no_removal_aux (MAX_RETRIES - attempt) attempt le_rfl url env h

/-- Witness for C1: a task whose resolution always fails settles with
failure, and its trace contains no removal call. -/
theorem c1_removal_only_on_success_witness :
    (downloadVideo "id1" (fun _ => AttemptEvent.resolveError) 1).1.removes = [] :=
  c1_removal_only_on_success "id1" (fun _ => AttemptEvent.resolveError) 1
    (by simp [downloadVideo, MAX_RETRIES, retryDelay, RETRY_DELAY_BASE])

/-- C2 (code bug): a transfer error on the very first attempt makes the
task's promise reject immediately — the effect trace records no backoff
wait and no further attempt, and the settlement is a rejection escaping
the task — whereas the claim requires a retry-delay wait, a restart at
Resolving with the attempt incremented, and that errors never raise past
the task.  The `return new Promise(...)` on source line 140 exits the
`try` block before the stream `error` event can fire, so the `catch` of
line 150 (the retry branch) never sees transfer or write errors. -/
theorem c2_transfer_error_bypasses_retry :
    downloadVideo "id1" (fun _ => AttemptEvent.transferError "title") 1
      = (⟨[], [], 1, 1⟩, Except.error ()) := by
  simp [downloadVideo]

/-- Counterexample for C3: when lock contention outlasts the 5 retries,
`lockfile.lock` (source line 53, outside the `try`) rejects and the
rejection escapes `removeUrlFromFile` — the caller does observe an error,
contradicting the claim that acquisition failure is logged and
swallowed. -/
theorem c3_lock_failure_raises :
    removeUrlFromFile ⟨LOCK_RETRIES + 1, true⟩ (fun _ => true) "u"
      (FileContent.readable "u\n")
      = ⟨FileContent.readable "u\n", false, RemoveOutcome.raised⟩ := by
  decide

/-- C3 as amended: `remove` acquires the exclusive lock with up to 5
retries and, once the lock is acquired, performs a load()-equivalent read,
filters out the identifier, rewrites the resource one identifier per line
with a trailing newline iff the result is non-empty, releases the lock in
the guaranteed-release block whether the write succeeds or fails, and
swallows write failures; lock-acquisition failure, however, rejects out of
`remove` and is observed by the caller (see the counterexample). -/
theorem c3_remove_contract_amended (env : RemoveEnv) (validate : String → Bool)
    (urlToRemove : String) (fs : FileContent)
    (hlock : env.lockBusyTries ≤ LOCK_RETRIES) :
    LOCK_RETRIES = 5
    ∧ (removeUrlFromFile env validate urlToRemove fs).released = true
    ∧ (removeUrlFromFile env validate urlToRemove fs).outcome ≠ RemoveOutcome.raised
    ∧ (env.writeOk = true →
        (removeUrlFromFile env validate urlToRemove fs).outcome = RemoveOutcome.ok
        ∧ (removeUrlFromFile env validate urlToRemove fs).fs
            = FileContent.readable
                (joinLines (((readUrls validate fs).2).filter (fun u => u != urlToRemove))))
    ∧ (env.writeOk = false →
        (removeUrlFromFile env validate urlToRemove fs).outcome = RemoveOutcome.swallowed
        ∧ (removeUrlFromFile env validate urlToRemove fs).fs = (readUrls validate fs).1)
    ∧ (∀ v vs, (joinLines (v :: vs)).data.getLast? = some '\n')
    ∧ joinLines [] = "" := by
  have hno : ¬ LOCK_RETRIES < env.lockBusyTries := not_lt.mpr hlock
  cases hw : env.writeOk <;>
    simp [removeUrlFromFile, hno, hw, joinLines_getLast] <;>
    exact ⟨rfl, rfl⟩

/-- Witness for C3 (amended): a concrete removal under an uncontended lock
completes without raising to the caller. -/
theorem c3_remove_contract_witness :
    (removeUrlFromFile ⟨0, true⟩ (fun _ => true) "b"
        (FileContent.readable "a\nb\n")).outcome ≠ RemoveOutcome.raised :=
  (c3_remove_contract_amended ⟨0, true⟩ (fun _ => true) "b"
      (FileContent.readable "a\nb\n") (by decide)).2.2.1

/-- C4: with concurrency limit `k`, every state the limited scheduler can
reach — from a start state with any number of pending tasks, by starting a
task only while a slot is free and by finishing active tasks — has at most
`k` tasks executing Fetcher-bound work; and the source's limit constant is
2. -/
theorem c4_at_most_k_active :
    CONCURRENCY_LIMIT = 2
    ∧ ∀ (k : Nat) (s : SchedState), SchedReachable k s → s.active ≤ k := by
  refine ⟨rfl, ?_⟩
  intro k s hs
  induction hs with
  | init n => exact Nat.zero_le k
  | step hr hstep ih =>
    cases hstep with
    | start hsk hp => exact hsk
    | finish ha => exact le_trans (Nat.sub_le _ _) ih

/-- Witness for C4: a freshly started run of 5 tasks under the source's
limit of 2 has at most 2 active tasks. -/
theorem c4_at_most_k_active_witness :
    (SchedState.mk 5 0 0).active ≤ CONCURRENCY_LIMIT :=
  c4_at_most_k_active.2 CONCURRENCY_LIMIT ⟨5, 0, 0⟩ (SchedReachable.init 5)

/-- C5: on any attempt that finds the derived target file already present,
the task removes its identifier from the queue, settles with terminal
success, and opens zero byte streams. -/
theorem c5_existing_file_skips (url title : String) (env : Nat → AttemptEvent)
    (attempt : Nat) (h : env attempt = AttemptEvent.fileExists title) :
    downloadVideo url env attempt = (⟨[url], [], 0, 1⟩, Except.ok true) := by
  rw [downloadVideo.eq_def, h]

/-- Witness for C5: scenario C — queue task for "id1" whose target file
pre-exists removes "id1", succeeds, and opens no stream. -/
theorem c5_existing_file_skips_witness :
    downloadVideo "id1" (fun _ => AttemptEvent.fileExists "t") 1
      = (⟨["id1"], [], 0, 1⟩, Except.ok true) :=
  c5_existing_file_skips "id1" "t" (fun _ => AttemptEvent.fileExists "t") 1 rfl

/-- C6: the retry delay is the pure function `base * 2 ^ (attempt - 1)`,
strictly increasing in the attempt number from attempt 1 on; the attempt
cap is 3; and in a run whose resolution always fails exactly 3 attempts
occur, with waits of `base` and `2 * base` between them and no removal,
no stream, and a failure settlement. -/
theorem c6_backoff :
    (∀ a, 1 ≤ a → retryDelay a < retryDelay (a + 1))
    ∧ (∀ a, retryDelay a = RETRY_DELAY_BASE * 2 ^ (a - 1))
    ∧ MAX_RETRIES = 3
    ∧ downloadVideo "id1" (fun _ => AttemptEvent.resolveError) 1
        = (⟨[], [RETRY_DELAY_BASE, 2 * RETRY_DELAY_BASE], 0, 3⟩, Except.ok false) := by
  refine ⟨?_, fun a => rfl, rfl, ?_⟩
  · intro a ha
    simp only [retryDelay]
    have h2 : a - 1 < a + 1 - 1 := by omega
    exact mul_lt_mul_of_pos_left (Nat.pow_lt_pow_right one_lt_two h2)
      (by norm_num [RETRY_DELAY_BASE])
  · simp [downloadVideo, MAX_RETRIES, retryDelay, RETRY_DELAY_BASE]

/-- Witness for C6: the delay before the second attempt is strictly less
than the delay before the third. -/
theorem c6_backoff_witness : retryDelay 1 < retryDelay 2 :=
  c6_backoff.1 1 (by norm_num)

/-- Counterexample for C7: when a dispatched task's promise rejects (a
transfer error, see C2), `Promise.all` on source line 197 rejects — the
individual task failure propagates as a failure of the whole run (caught
only by the top-level handler of lines 202-204), instead of being logged
with the run settling every task. -/
theorem c7_rejection_propagates :
    (downloadAllVideos (fun _ => true) (FileContent.readable "a\nb\n")
        (fun _ => Except.error ())).2.outcome = Except.error () := by
  rfl

/-- C7 as amended: the scheduler loads the snapshot once and dispatches
exactly one task per snapshot identifier, and — provided every task
settles by fulfilling (returning success or failure rather than
rejecting) — the run waits for all of them, collecting one result per
dispatched identifier, and a task's `false` (failure) result is never
propagated as a run failure; a task promise that rejects, however, makes
the whole run reject (see the counterexample). -/
theorem c7_scheduler_amended (validate : String → Bool) (fs : FileContent)
    (task : String → Except Unit Bool)
    (h : ∀ u, task u ≠ Except.error ()) :
    (downloadAllVideos validate fs task).2.dispatched = (readUrls validate fs).2
    ∧ ∃ bs, (downloadAllVideos validate fs task).2.outcome = Except.ok bs
        ∧ bs.length = (downloadAllVideos validate fs task).2.dispatched.length := by
  by_cases he : (readUrls validate fs).2.isEmpty
  · have h0 : (readUrls validate fs).2 = [] := List.isEmpty_iff.mp he
    constructor
    · simp [downloadAllVideos, he, h0]
    · exact ⟨[], by simp [downloadAllVideos, he], by simp [downloadAllVideos, he]⟩
  · obtain ⟨bs, hbs, hlen⟩ := promiseAll_ok ((readUrls validate fs).2.map task)
      (by intro r hr; obtain ⟨u, -, rfl⟩ := List.mem_map.mp hr; exact h u)
    constructor
    · simp [downloadAllVideos, he]
    · refine ⟨bs, ?_, ?_⟩
      · simp [downloadAllVideos, he, hbs]
      · simp [downloadAllVideos, he, hlen]

/-- Witness for C7 (amended): a run whose single task fulfills with
failure still yields a fulfilled run with one collected result. -/
theorem c7_scheduler_witness :
    (downloadAllVideos (fun _ => true) (FileContent.readable "a\n")
        (fun _ => Except.ok false)).2.dispatched
      = (readUrls (fun _ => true) (FileContent.readable "a\n")).2 :=
  (c7_scheduler_amended (fun _ => true) (FileContent.readable "a\n")
      (fun _ => Except.ok false) (fun u => by simp)).1

/-- C8: loading a readable queue resource splits its content into lines,
trims each, and returns exactly the lines that are non-blank and pass the
validity predicate, in their original order — stated as the full equality
with the filter of the trimmed lines, together with its consequences: the
result is an order-preserving sublist of the trimmed lines, every
non-blank valid trimmed line is returned (completeness), and every
returned identifier is non-blank and valid (soundness); a missing
resource is created empty with an empty result, and an unreadable
resource yields an empty result without raising (the model is a total
function). -/
theorem c8_readUrls_contract (validate : String → Bool) :
    readUrls validate FileContent.missing = (FileContent.readable "", [])
    ∧ readUrls validate FileContent.unreadable = (FileContent.unreadable, [])
    ∧ (∀ d, (readUrls validate (FileContent.readable d)).1 = FileContent.readable d)
    ∧ (∀ d, (readUrls validate (FileContent.readable d)).2
        = ((jsSplitLines d).map jsTrim).filter (fun u => (u != "") && validate u))
    ∧ (∀ d, List.Sublist ((readUrls validate (FileContent.readable d)).2)
        ((jsSplitLines d).map jsTrim))
    ∧ (∀ d u, u ∈ (jsSplitLines d).map jsTrim → u ≠ "" → validate u = true →
        u ∈ (readUrls validate (FileContent.readable d)).2)
    ∧ (∀ d u, u ∈ (readUrls validate (FileContent.readable d)).2 →
        u ≠ "" ∧ validate u = true) := by
  refine ⟨rfl, rfl, fun d => rfl, fun d => rfl, fun d => ?_,
    fun d u hu hne hv => ?_, fun d u hu => ?_⟩
  · exact List.filter_sublist _
  · show u ∈ parseUrls validate d
    refine List.mem_filter.mpr ⟨hu, ?_⟩
    simp [hne, hv]
  · simp only [readUrls, parseUrls, List.mem_filter] at hu
    obtain ⟨-, hcond⟩ := hu
    simp only [Bool.and_eq_true, bne_iff_ne, ne_eq] at hcond
    exact ⟨hcond.1, hcond.2⟩

/-- Witness for C8: a loaded identifier from a concrete file is non-blank
and valid under a concrete predicate. -/
theorem c8_readUrls_contract_witness :
    "a" ≠ "" ∧ (fun s => s == "a") "a" = true :=
  (c8_readUrls_contract (fun s => s == "a")).2.2.2.2.2.2 " a \nb\n" "a" (by decide)

/-- Counterexample for C9: in the file "a \nb\n" the identifier "a" is
loaded from the line "a " (trailing blank); its task exhausts all retries
(settling with failure), yet after a removal of the *other* identifier
"b" the rewritten file is "a\n", whose lines no longer contain the
pre-run line "a " byte for byte — the rewrite stored the trimmed form. -/
theorem c9_not_byte_for_byte :
    (downloadVideo "a" (fun _ => AttemptEvent.resolveError) 1).2 = Except.ok false
    ∧ "a " ∈ jsSplitLines "a \nb\n"
    ∧ "a" ∈ (readUrls (fun _ => true) (FileContent.readable "a \nb\n")).2
    ∧ (removeUrlFromFile ⟨0, true⟩ (fun _ => true) "b"
        (FileContent.readable "a \nb\n")).fs = FileContent.readable "a\n"
    ∧ "a " ∉ jsSplitLines "a\n" := by
  refine ⟨?_, by decide, by decide, by decide, by decide⟩
  simp [downloadVideo, MAX_RETRIES]

/-- C9 as amended: after a successful removal of a different identifier,
every surviving loaded identifier is still present as a full line of the
queue resource in its loaded — that is, trimmed — form (byte-for-byte
preservation of the raw pre-run line fails when that line carried
surrounding whitespace; see the counterexample). -/
theorem c9_trimmed_line_survives (validate : String → Bool) (d r u : String)
    (env : RemoveEnv) (hmem : u ∈ parseUrls validate d) (hne : u ≠ r)
    (hlock : env.lockBusyTries ≤ LOCK_RETRIES) (hw : env.writeOk = true) :
    ∃ d', (removeUrlFromFile env validate r (FileContent.readable d)).fs
            = FileContent.readable d'
      ∧ u ∈ jsSplitLines d' := by
  have hno : ¬ LOCK_RETRIES < env.lockBusyTries := not_lt.mpr hlock
  refine ⟨joinLines ((parseUrls validate d).filter (fun x => x != r)), ?_, ?_⟩
  · simp [removeUrlFromFile, hno, hw, readUrls]
  · have hu : u ∈ (parseUrls validate d).filter (fun x => x != r) := by
      rw [List.mem_filter]
      exact ⟨hmem, by simpa [bne_iff_ne] using hne⟩
    have hnonnil : (parseUrls validate d).filter (fun x => x != r) ≠ [] :=
      fun hc => by rw [hc] at hu; exact absurd hu (List.not_mem_nil u)
    have hnl : ∀ x ∈ (parseUrls validate d).filter (fun x => x != r), '\n' ∉ x.data := by
      intro x hx
      exact no_nl_of_mem_parseUrls validate d x (List.mem_filter.mp hx).1
    rw [jsSplitLines_joinLines _ hnl hnonnil]
    simp [hu]

/-- Witness for C9 (amended): after removing "b" from "a\nb\n", the
surviving identifier "a" is still a full line of the rewritten file. -/
theorem c9_trimmed_line_survives_witness :
    ∃ d', (removeUrlFromFile ⟨0, true⟩ (fun _ => true) "b"
            (FileContent.readable "a\nb\n")).fs = FileContent.readable d'
      ∧ "a" ∈ jsSplitLines d' :=
  c9_trimmed_line_survives (fun _ => true) "a\nb\n" "b" "a" ⟨0, true⟩
    (by decide) (by decide) (by decide) rfl

/-- C10: the filter predicate passed when opening the byte stream (source
line 122) compares a format's `itag` to itself, so it returns `true` for
every candidate format and is identical for any two previously selected
variants — the earlier selection does not constrain which variant is
streamed. -/
theorem c10_stream_filter_trivial (selected other f : VideoFormat) :
    streamFilter selected f = true ∧ streamFilter selected f = streamFilter other f := by
  constructor
  · simp [streamFilter]
  · rfl

end YtDownloader
